import Mathlib

/-!
# Verification of the react-vr-web model-loader adapters

Shallow embedding of the two asset-loader adapters of this repository:
`src/js/Loaders/GLTF2ModelLoader.js` (class `GLTF2MeshInstance`, class
`GLTF2ModelLoader`) and the unnamed FBX loader source (`src/unnamed/part_000`,
class `FBXMeshInstance`, class `FBXModelLoader`).

JavaScript dynamic values are embedded as the inductive type `JSVal`
(numbers are modelled as integers: the code performs no arithmetic on
definition fields, only truthiness tests and strict comparison with `0`;
`NaN` and `-0` do not arise).  Property reads, truthiness, the `&&`
operator and `for…in` key enumeration are given their JavaScript meaning
for the value shapes the loaders actually receive (`for…in` over a
primitive string, which enumerates index keys, is not needed by any
definition object and is not modelled).

Stateful class code is embedded as explicit state passing: a
`MeshInst` record mirrors the mutable fields of a mesh-instance object,
and each method becomes a function from old state to new state.
Animation actions of the three.js mixer are mirrored by `ActionState`
records holding the most recent `fadeIn`, `setEffectiveTimeScale`,
`setEffectiveWeight`, `syncWith`, `play` / `stop` effects.
-/

set_option autoImplicit false

namespace ReactVRWeb

/-- Embedded JavaScript values (numbers as integers, see module comment). -/
inductive JSVal : Type where
  | undefined : JSVal
  | null : JSVal
  | bool : Bool → JSVal
  | num : Int → JSVal
  | str : String → JSVal
  | obj : List (String × JSVal) → JSVal

/-- First-match association-list lookup (JavaScript objects have unique
keys, so first match is the only match on faithfully built objects). -/
def alookup {β : Type} : List (String × β) → String → Option β
  | [], _ => none
  | (k', v) :: rest, k => if k' = k then some v else alookup rest k

/-- JavaScript truthiness of an embedded value. -/
def truthy : JSVal → Bool
  | .undefined => false
  | .null => false
  | .bool b => b
  | .num n => n != 0
  | .str s => s != ""
  | .obj _ => true

/-- Property read `v[k]`: object own property, string `length`; any other
read on a primitive yields `undefined`. -/
def getProp : JSVal → String → JSVal
  | .obj ps, k => (alookup ps k).getD .undefined
  | .str s, k => if k = "length" then .num (s.length : Int) else .undefined
  | _, _ => .undefined

/-- Own enumerable keys as enumerated by `for…in` (objects only; `for…in`
over other values the loaders receive enumerates nothing). -/
def jsKeys : JSVal → List String
  | .obj ps => ps.map Prod.fst
  | _ => []

/-- JavaScript `a && b`: returns `a` when `a` is falsy, else `b`. -/
def jsAnd (a b : JSVal) : JSVal := if truthy a then b else a

/-- The conditional `x ? x : d` used throughout the loaders for
defaulting: returns `x` when truthy, the default otherwise. -/
def jsOrVal (x d : JSVal) : JSVal := if truthy x then x else d

/-- Strict equality test `v === 0` (used on `animations.length`). -/
def isNumZero : JSVal → Bool
  | .num n => n == 0
  | _ => false

/-- Coercion of a value used as a property key (`allAnimations[params.syncWith]`). -/
def jsToKey : JSVal → String
  | .str s => s
  | .num n => toString n
  | .bool b => toString b
  | .null => "null"
  | .undefined => "undefined"
  | .obj _ => "[object Object]"

/-- `Object.prototype.hasOwnProperty` for the embedded values: own keys
of an object; a string owns `length` and its index keys; other
primitives own nothing (and the loaders never reach the `null` /
`undefined` throw, because `&&` short-circuits first). -/
def hasOwnProp (v : JSVal) (k : String) : Bool :=
  match v with
  | .obj ps => (ps.map Prod.fst).contains k
  | .str s =>
    match k.toNat? with
    | some n => n < s.length
    | none => k == "length"
  | _ => false

/-- State of one three.js `AnimationAction`, recording the effects the
loaders apply to it: `play()` / `stop()` toggles `playing`; `fadeTime`,
`timeScale`, `weight` hold the argument of the most recent
`fadeIn` / `setEffectiveTimeScale` / `setEffectiveWeight` effect (the FBX
loader assigns the homonymous properties directly, recorded the same
way); `synced` records the most recent `syncWith` target key. -/
structure ActionState : Type where
  playing : Bool
  fadeTime : JSVal
  timeScale : JSVal
  weight : JSVal
  synced : Option String

/-- A freshly created `mixer.clipAction` (three.js defaults: time scale
and weight `1`, not yet playing, no fade, no sync). -/
def ActionState.initial : ActionState :=
  { playing := false, fadeTime := .num 0, timeScale := .num 1, weight := .num 1, synced := none }

/-- Update the value stored at key `k` (first matching entry), leaving
the list unchanged when the key is absent — the embedding of mutating
the action object obtained from a successful `allAnimations[k]` lookup. -/
def setAction (all : List (String × ActionState)) (k : String)
    (f : ActionState → ActionState) : List (String × ActionState) :=
  match all with
  | [] => []
  | (k', a) :: rest =>
    if k' = k then (k', f a) :: rest else (k', a) :: setAction rest k f

/-- JavaScript object assignment `allAnimations[k] = v`: overwrite the
existing entry or append a new one. -/
def upsert (all : List (String × ActionState)) (k : String) (v : ActionState) :
    List (String × ActionState) :=
  match all with
  | [] => [(k, v)]
  | (k', a) :: rest =>
    if k' = k then (k', v) :: rest else (k', a) :: upsert rest k v

/-!
## Scene graph and `recursiveDispose`

Both source files define the identical module-level function
`recursiveDispose(node)`.  A scene-graph node is embedded as a rose tree
carrying an identity `nid`, whether `typeof node.dispose === 'function'`,
and whether the `geometry` / `material` properties are truthy.  The
side effects of disposal are embedded as a list of emitted events.
-/

/-- A three.js scene-graph node as `recursiveDispose` observes it. -/
inductive SceneNode : Type where
  | node (nid : Nat) (hasDispose hasGeometry hasMaterial : Bool)
      (children : List SceneNode)

/-- Node identity. -/
def SceneNode.nid : SceneNode → Nat
  | .node i _ _ _ _ => i

/-- Whether `typeof node.dispose === 'function'`. -/
def SceneNode.hasDispose : SceneNode → Bool
  | .node _ d _ _ _ => d

/-- Whether `node.geometry` is truthy. -/
def SceneNode.hasGeometry : SceneNode → Bool
  | .node _ _ g _ _ => g

/-- Whether `node.material` is truthy. -/
def SceneNode.hasMaterial : SceneNode → Bool
  | .node _ _ _ m _ => m

/-- The node's `children` array. -/
def SceneNode.children : SceneNode → List SceneNode
  | .node _ _ _ _ cs => cs

/-- A disposal side effect: `node.dispose()`, `node.geometry.dispose()`
or `node.material.dispose()` on the node with the given identity. -/
inductive DisposeEvent : Type where
  | callDispose (nid : Nat)
  | disposeGeometry (nid : Nat)
  | disposeMaterial (nid : Nat)
deriving DecidableEq

mutual

/-- `recursiveDispose(node)` of both loader sources, as the list of
disposal effects it performs, in order: the node's own `dispose` when it
is a function, its `geometry.dispose()` and `material.dispose()` when
those properties exist, then each child recursively. -/
def recursiveDispose : SceneNode → List DisposeEvent
  | .node i d g m cs =>
    (if d then [.callDispose i] else []) ++
    (if g then [.disposeGeometry i] else []) ++
    (if m then [.disposeMaterial i] else []) ++
    recursiveDisposeList cs

/-- The `for (const child of node.children)` loop of `recursiveDispose`. -/
def recursiveDisposeList : List SceneNode → List DisposeEvent
  | [] => []
  | c :: cs => recursiveDispose c ++ recursiveDisposeList cs

end

mutual

/-- All nodes reachable from a root by following `children`. -/
def reachable : SceneNode → List SceneNode
  | .node i d g m cs => .node i d g m cs :: reachableList cs

/-- Nodes reachable from any node of a list. -/
def reachableList : List SceneNode → List SceneNode
  | [] => []
  | c :: cs => reachable c ++ reachableList cs

end

/-!
## Reference-counted cache and loaded models
-/

/-- A parsed, loaded model as the load callbacks receive it (`gltf` /
`fbx`): a scene graph and the clip-name list of its `animations` array.
Cached entries of the state caches hold the same shape (`entry.scene`). -/
structure LoadedModel : Type where
  scene : SceneNode
  animations : List String

/-- Modelled from the spec: the reference-counted cache utility
(`src/js/Utils/RefCountCache.js`, not under `src/`): entries are
reference-counted per URL; `addReference` increments an existing entry's
count, `removeReference` decrements it, and when the count reaches zero
the entry is dropped and the eviction callback given at construction
runs on it. -/
def RefCache : Type := List (String × (Nat × LoadedModel))

/-- Whether the cache holds an entry for the URL (`cache.has(url)`). -/
def cacheHas (c : RefCache) (u : String) : Bool := (alookup c u).isSome

/-- The cached entry for a URL (`cache.get(url)`). -/
def cacheGet (c : RefCache) (u : String) : Option LoadedModel :=
  (alookup c u).map Prod.snd

/-- The URL's reference count, `0` when absent. -/
def refCount (c : RefCache) (u : String) : Nat :=
  match alookup c u with
  | some (n, _) => n
  | none => 0

/-- Modelled from the spec: `addReference(url)` increments the count of
an existing entry. -/
def addReference : RefCache → String → RefCache
  | [], _ => []
  | (k, (n, e)) :: rest, u =>
    if k = u then (k, (n + 1, e)) :: rest else (k, (n, e)) :: addReference rest u

/-- Modelled from the spec: `removeReference(url)` decrements the count;
a count reaching zero drops the entry and returns it for the eviction
callback (which both loader sources instantiate with
`recursiveDispose(entry.scene)`). -/
def removeReference : RefCache → String → RefCache × Option LoadedModel
  | [], _ => ([], none)
  | (k, (n, e)) :: rest, u =>
    if k = u then
      if n ≤ 1 then (rest, some e) else ((k, (n - 1, e)) :: rest, none)
    else
      let r := removeReference rest u
      ((k, (n, e)) :: r.1, r.2)

/-- The eviction callback both sources pass to their `RefCountCache`:
`recursiveDispose(entry.scene)`, given as its effect list. -/
def evictionCallback (entry : LoadedModel) : List DisposeEvent :=
  recursiveDispose entry.scene

/-- Modelled from the spec: the URL-extraction utility
(`src/js/Utils/extractURL.js`, not under `src/`): yields the string
itself for a string value, the `uri` property of an object holding a
string one, and nothing for other values (in particular `undefined`). -/
def extractURL : JSVal → Option String
  | .str s => some s
  | .obj ps =>
    match alookup ps "uri" with
    | some (.str s) => some s
    | _ => none
  | _ => none

/-!
## Mesh-instance state

`MeshInst` mirrors the mutable fields of `GLTF2MeshInstance` /
`FBXMeshInstance`.  The parent view is mirrored as the id list of its
children (`parentChildren`), so `parent.add` / `parent.remove` become
list operations.  The mixer is mirrored by `hasMixer` together with the
action stores: `allAnimations` (the only actions the GLTF2 loader
creates, keyed by clip name — clip names of one model are distinct) and
`fbxAction` (the single `clipAction` the FBX load callback creates,
which is never entered into `allAnimations`).
-/

/-- The mutable state of one mesh-instance object. -/
structure MeshInst : Type where
  url : String
  parentChildren : List Nat
  scene : Option SceneNode
  hasMixer : Bool
  timeStamp : Int
  animationParams : JSVal
  activeAnimations : List String
  allAnimations : List (String × ActionState)
  fbxAction : Option ActionState

/-- `parseAnimationParams(definition)`: `definition.animations ||
defaultParam`, with `defaultParam = {play: false, timeScale: 0}`. -/
def parseAnimationParams (definition : JSVal) : JSVal :=
  let defaultParam : JSVal := .obj [("play", .bool false), ("timeScale", .num 0)]
  if truthy definition then
    if truthy (getProp definition "animations") then getProp definition "animations"
    else defaultParam
  else defaultParam

/-- The instance state the constructors build before any load result
arrives (`urlField` is `"gltf2"` for the GLTF2 loader, `"fbx"` for the
FBX one): `this.url = extractURL(definition.<field>) || ''`, mixer
`null`, `timeStamp = -1`, empty animation records. -/
def pendingInst (definition : JSVal) (urlField : String) (parentChildren : List Nat) :
    MeshInst :=
  { url := (extractURL (getProp definition urlField)).getD ""
    parentChildren := parentChildren
    scene := none
    hasMixer := false
    timeStamp := -1
    animationParams := parseAnimationParams definition
    activeAnimations := []
    allAnimations := []
    fbxAction := none }

/-!
## Load callbacks

The `requestAnimationFrame(() => parent.add(...))` deferral is flattened
into the callback: execution is single-threaded and callback-driven, and
no modelled observation point falls between the load callback and its
scheduled attach.
-/

/-- The instance-mutating part of the GLTF2 `onLoad` closure
(`GLTF2ModelLoader.js` lines 62–95, minus the cache `addReference`
interaction, which the wrappers below perform): store `gltf.scene`,
create the mixer, and when `params.play` is truthy configure and play
every animation of the model, recording each under its clip name in
`allAnimations`. -/
def gltf2OnLoadInst (gltf : LoadedModel) (i : MeshInst) : MeshInst :=
  let i := { i with scene := some gltf.scene, hasMixer := true }
  let params := i.animationParams
  let i :=
    if truthy (getProp params "play") then
      let fadeIn := jsOrVal (getProp params "fadeTime") (.num 0)
      let timeScale := jsOrVal (getProp params "timeScale") (.num 1)
      let weight := jsOrVal (getProp params "weight") (.num 1)
      -- `if (animations && animations.length)`: the array is truthy,
      -- its length is truthy exactly when it is nonzero
      if gltf.animations.isEmpty then i
      else
        let act : ActionState :=
          { playing := true, fadeTime := fadeIn, timeScale := timeScale,
            weight := weight, synced := none }
        { i with allAnimations :=
            gltf.animations.foldl (fun all name => upsert all name act) i.allAnimations }
    else i
  { i with parentChildren := i.parentChildren ++ [gltf.scene.nid] }

/-- The FBX `onLoad` closure (`part_000` lines 65–83): create the mixer,
then unconditionally `mixer.clipAction(fbx.animations[0])` — `none`
models the engine failure on an empty `animations` array — and when
`params.play` is truthy assign its fade/time-scale/weight properties and
play it.  Note the FBX callback never assigns `this.scene` and never
touches `this.allAnimations`. -/
def fbxOnLoadInst (fbx : LoadedModel) (i : MeshInst) : Option MeshInst :=
  let i := { i with hasMixer := true }
  let params := i.animationParams
  match fbx.animations.head? with
  | none => none
  | some _clip =>
    let act := ActionState.initial
    let act :=
      if truthy (getProp params "play") then
        { act with
          fadeTime := jsOrVal (getProp params "fadeTime") (.num 0)
          timeScale := jsOrVal (getProp params "timeScale") (.num 1)
          weight := jsOrVal (getProp params "weight") (.num 1)
          playing := true }
      else act
    some { i with fbxAction := some act
                  parentChildren := i.parentChildren ++ [fbx.scene.nid] }

/-!
## `updateAnimation` (identical in both sources)
-/

/-- Prefix applied to requested keys: `'animation_' + key`. -/
def prefixedName (key : String) : String := "animation_" ++ key

/-- Accumulator of the `for (const key in definition.animations)` loop:
the action store, the shrinking `this.activeAnimations` key set, and
the growing `newActiveAnimations` key set. -/
structure LoopSt : Type where
  all : List (String × ActionState)
  active : List String
  newActive : List String

/-- One iteration of the reconciliation loop: record the prefixed name
as newly active; when a matching action exists, apply the requested
parameters when the per-key params value is truthy (falsy fields fall
back to `0` / `1` / `1`), sync when requested, and `play()` when the
name was not already active; finally `delete this.activeAnimations[animName]`. -/
def processKey (animations : JSVal) (st : LoopSt) (key : String) : LoopSt :=
  let animName := prefixedName key
  let newActive :=
    if st.newActive.contains animName then st.newActive
    else st.newActive ++ [animName]
  match alookup st.all animName with
  | some _ =>
    let params := getProp animations key
    let all1 :=
      if truthy params then
        setAction st.all animName (fun a =>
          let a := { a with
            fadeTime := jsOrVal (getProp params "fadeTime") (.num 0)
            timeScale := jsOrVal (getProp params "timeScale") (.num 1)
            weight := jsOrVal (getProp params "weight") (.num 1) }
          if truthy (getProp params "syncWith")
              && (alookup st.all (jsToKey (getProp params "syncWith"))).isSome then
            { a with synced := some (jsToKey (getProp params "syncWith")) }
          else a)
      else st.all
    let all2 :=
      if st.active.contains animName then all1
      else setAction all1 animName (fun a => { a with playing := true })
    { all := all2, active := st.active.erase animName, newActive := newActive }
  | none =>
    { all := st.all, active := st.active.erase animName, newActive := newActive }

/-- `this.activeAnimations = {}; this.mixer.stopAllAction()`: stop every
action the mixer owns (including the FBX loader's single action, which
`allAnimations` never references). -/
def stopAllActions (i : MeshInst) : MeshInst :=
  { i with
    activeAnimations := []
    allAnimations := i.allAnimations.map (fun p => (p.1, { p.2 with playing := false }))
    fbxAction := i.fbxAction.map (fun a => { a with playing := false }) }

/-- The trailing loop of `updateAnimation`: stop every still-listed
previously-active animation that has a matching action. -/
def stopLeftovers (active : List String) (all : List (String × ActionState)) :
    List (String × ActionState) :=
  active.foldl (fun all k =>
    if (alookup all k).isSome then setAction all k (fun a => { a with playing := false })
    else all) all

/-- `updateAnimation(definition)` of both mesh-instance classes
(`GLTF2ModelLoader.js` lines 139–178, `part_000` lines 112–151): a falsy
`definition.animations`, or one whose `length` property is strictly
equal to `0`, stops everything (when a mixer exists) and returns;
otherwise the requested keys are reconciled against the active set and
the leftovers stopped. -/
def updateAnimation (definition : JSVal) (i : MeshInst) : MeshInst :=
  let animations := getProp definition "animations"
  if !truthy animations || isNumZero (getProp animations "length") then
    if i.hasMixer then stopAllActions i else i
  else
    let st := (jsKeys animations).foldl (processKey animations)
      { all := i.allAnimations, active := i.activeAnimations, newActive := [] }
    { i with
      allAnimations := stopLeftovers st.active st.all
      activeAnimations := st.newActive }

/-- `GLTF2MeshInstance.update(definition)`: compare
`extractURL(definition.gltf2) || ''` with `this.url`; on mismatch return
`false` untouched, otherwise reconcile animations and return `true`. -/
def gltf2Update (definition : JSVal) (i : MeshInst) : Bool × MeshInst :=
  let newUrl := (extractURL (getProp definition "gltf2")).getD ""
  if newUrl ≠ i.url then (false, i)
  else (true, updateAnimation definition i)

/-- `FBXMeshInstance.update(definition)`: the FBX source compares
`extractURL(definition.gltf2) || ''` — the `gltf2` field, not `fbx`
(`part_000` line 156) — with `this.url`; on mismatch return `false`
untouched, otherwise reconcile animations and return `true`. -/
def fbxUpdate (definition : JSVal) (i : MeshInst) : Bool × MeshInst :=
  let newUrl := (extractURL (getProp definition "gltf2")).getD ""
  if newUrl ≠ i.url then (false, i)
  else (true, updateAnimation definition i)

/-!
## Constructors, disposal, load failure, and the module-level state
-/

/-- The module-level mutable state of the GLTF2 loader source:
`gltfStateCache` and `loadList` (to which nothing is ever added — the
registration at line 111 is commented out). -/
structure Gltf2Globals : Type where
  cache : RefCache
  loadList : List String

/-- The module-level mutable state of the FBX loader source:
`fbxStateCache` and its (never written) `loadList`. -/
structure FbxGlobals : Type where
  cache : RefCache
  loadList : List String

/-- Which branch a `GLTF2MeshInstance` construction takes. -/
inductive ConstructEvent : Type where
  | cacheHit
  | pendingAppend
  | freshLoad
deriving DecidableEq

/-- `new GLTF2MeshInstance(definition, parent)`: build the pending
state; on a cache hit run `onLoad` on the cached entry synchronously
(inside which `has` succeeds, so `addReference` runs); otherwise, when a
download is already registered, append the callback; otherwise start a
fresh `loader.load` (without registering it — line 111 is commented
out). -/
def gltf2New (definition : JSVal) (parentChildren : List Nat) (g : Gltf2Globals) :
    MeshInst × Gltf2Globals × ConstructEvent :=
  let i := pendingInst definition "gltf2" parentChildren
  match cacheGet g.cache i.url with
  | some entry =>
    (gltf2OnLoadInst entry i, { g with cache := addReference g.cache i.url }, .cacheHit)
  | none =>
    if g.loadList.contains i.url then (i, g, .pendingAppend)
    else (i, g, .freshLoad)

/-- `new FBXMeshInstance(definition, parent)`: build the pending state
and start `loader.load` unconditionally — the FBX constructor never
consults `fbxStateCache` or `loadList`. -/
def fbxNew (definition : JSVal) (parentChildren : List Nat) (g : FbxGlobals) :
    MeshInst × FbxGlobals :=
  (pendingInst definition "fbx" parentChildren, g)

/-- Completion of an in-flight GLTF2 network load: the `onLoad` closure
runs; its leading `if (gltfStateCache.has(this.url))
gltfStateCache.addReference(this.url)` is reflected in the returned
flag. -/
def gltf2NetLoad (gltf : LoadedModel) (i : MeshInst) (g : Gltf2Globals) :
    MeshInst × Gltf2Globals × Bool :=
  if cacheHas g.cache i.url then
    (gltf2OnLoadInst gltf i, { g with cache := addReference g.cache i.url }, true)
  else
    (gltf2OnLoadInst gltf i, g, false)

/-- The GLTF2 load-error callback (`GLTF2ModelLoader.js` lines 121–124):
log and `delete loadList[this.url]`; the instance is untouched. -/
def gltf2LoadFail (i : MeshInst) (g : Gltf2Globals) :
    MeshInst × Gltf2Globals × String :=
  (i, { g with loadList := g.loadList.erase i.url }, "failed to load GLTF " ++ i.url)

/-- The FBX load-error callback (`part_000` lines 94–97): log and
`delete loadList[this.url]`; the instance is untouched. -/
def fbxLoadFail (i : MeshInst) (g : FbxGlobals) :
    MeshInst × FbxGlobals × String :=
  (i, { g with loadList := g.loadList.erase i.url }, "failed to load FBX " ++ i.url)

/-- `dispose()` (identical body in both classes, against the respective
cache): when `this.scene` is set, `removeReference(this.url)`,
`parent.remove(this.scene)` and `delete this.scene`; otherwise nothing.
The third component is the entry evicted by a count reaching zero, on
which the cache's eviction callback runs `recursiveDispose`. -/
def disposeInst (i : MeshInst) (c : RefCache) :
    MeshInst × RefCache × Option LoadedModel :=
  match i.scene with
  | some s =>
    let r := removeReference c i.url
    ({ i with scene := none, parentChildren := i.parentChildren.erase s.nid },
     r.1, r.2)
  | none => (i, c, none)

/-!
## The GLTF2 module as a transition system

Every touch of `gltfStateCache` / `loadList` in the GLTF2 source occurs
in one of four places: a constructor run, an asynchronous load
completion (the `onLoad` closure), an asynchronous load failure (the
error callback), or a `dispose()` call.  `gltf2Step` is the effect of
one such occurrence on the module-level state, tagged with the branch
taken.
-/

/-- One occurrence of module-state-touching code in the GLTF2 source. -/
inductive GOp : Type where
  | construct (definition : JSVal)
  | netLoad (inst : MeshInst) (gltf : LoadedModel)
  | netFail (inst : MeshInst)
  | dispose (inst : MeshInst)

/-- The branch such an occurrence takes. -/
inductive GEvent : Type where
  | cacheHit
  | pendingAppend
  | freshLoad
  | onLoadAddRef
  | onLoadNoRef
  | failCleared
  | disposeRemoveRef
  | disposeNoop
deriving DecidableEq

/-- Effect of one operation on the GLTF2 module-level state. -/
def gltf2Step (g : Gltf2Globals) : GOp → Gltf2Globals × GEvent
  | .construct d =>
    let r := gltf2New d [] g
    (r.2.1,
      match r.2.2 with
      | .cacheHit => .cacheHit
      | .pendingAppend => .pendingAppend
      | .freshLoad => .freshLoad)
  | .netLoad i gltf =>
    let r := gltf2NetLoad gltf i g
    (r.2.1, if r.2.2 then .onLoadAddRef else .onLoadNoRef)
  | .netFail i =>
    let r := gltf2LoadFail i g
    (r.2.1, .failCleared)
  | .dispose i =>
    let r := disposeInst i g.cache
    ({ g with cache := r.2.1 },
     if i.scene.isSome then .disposeRemoveRef else .disposeNoop)

/-- Run a sequence of operations from a module state, collecting the
branch taken by each. -/
def gltf2Run (g : Gltf2Globals) : List GOp → Gltf2Globals × List GEvent
  | [] => (g, [])
  | op :: ops =>
    let r := gltf2Step g op
    let rest := gltf2Run r.1 ops
    (rest.1, r.2 :: rest.2)

/-- The initial module state: both module-level containers start empty. -/
def gltf2Init : Gltf2Globals := { cache := [], loadList := [] }

/-- The branch each operation must take when the module state is (and
stays) empty: constructions always reach the fresh `loader.load`, load
completions never find a cache entry, failures clear, disposals
decrement (a no-op on the empty cache) or skip. -/
def gltf2PureEvent : GOp → GEvent
  | .construct _ => .freshLoad
  | .netLoad _ _ => .onLoadNoRef
  | .netFail _ => .failCleared
  | .dispose i => if i.scene.isSome then .disposeRemoveRef else .disposeNoop

/-!
## Specification predicates and concrete fixtures

Prop-valued specification predicates used by the claim statements, and
the concrete definition objects, instances and module states at which
counterexamples and witnesses below evaluate the embedding.
-/

/-- What holds of the instance after a reconciling `update` whose
`animations` value reaches the diff loop: exactly the prefixed requested
names are recorded active; every requested name with a matching loaded
action is playing, its parameters set from a truthy per-key params value
(falsy fields falling back to `0` / `1` / `1`) and left unchanged by a
falsy one; and every previously active name not requested again has its
matching action stopped. -/
def ReconcileSpec (definition : JSVal) (i i' : MeshInst) : Prop :=
  (i'.activeAnimations = (jsKeys (getProp definition "animations")).map prefixedName) ∧
  (∀ k ∈ jsKeys (getProp definition "animations"),
    ∀ a, alookup i.allAnimations (prefixedName k) = some a →
      ∃ a', alookup i'.allAnimations (prefixedName k) = some a' ∧
        a'.playing = true ∧
        a'.fadeTime =
          (if truthy (getProp (getProp definition "animations") k) then
            jsOrVal (getProp (getProp (getProp definition "animations") k) "fadeTime")
              (.num 0)
          else a.fadeTime) ∧
        a'.timeScale =
          (if truthy (getProp (getProp definition "animations") k) then
            jsOrVal (getProp (getProp (getProp definition "animations") k) "timeScale")
              (.num 1)
          else a.timeScale) ∧
        a'.weight =
          (if truthy (getProp (getProp definition "animations") k) then
            jsOrVal (getProp (getProp (getProp definition "animations") k) "weight")
              (.num 1)
          else a.weight)) ∧
  (∀ n ∈ i.activeAnimations,
    n ∉ (jsKeys (getProp definition "animations")).map prefixedName →
      ∀ a', alookup i'.allAnimations n = some a' → a'.playing = false)

/-- What holds after an `update` whose `animations` value takes the
stop-everything branch: the active record is emptied and every mixer
action — the `allAnimations` entries and the FBX loader's single
action — is stopped. -/
def StopAllSpec (i' : MeshInst) : Prop :=
  i'.activeAnimations = [] ∧
  (∀ n a', alookup i'.allAnimations n = some a' → a'.playing = false) ∧
  (∀ a', i'.fbxAction = some a' → a'.playing = false)

/-- Concrete update definition requesting animation `walk` with an
explicit time scale of `0`. -/
def zeroScaleDef : JSVal :=
  .obj [("gltf2", .str "u"),
        ("animations", .obj [("walk", .obj [("timeScale", .num 0)])])]

/-- A loaded instance owning the matching `animation_walk` action with
the default settings and an empty active record. -/
def zeroScaleInst : MeshInst :=
  { url := "u", parentChildren := [], scene := none, hasMixer := true,
    timeStamp := -1, animationParams := .undefined, activeAnimations := [],
    allAnimations := [("animation_walk", ActionState.initial)], fbxAction := none }

/-- Concrete update definition for the reconciliation witness:
requests `walk` with a truthy time scale of `2`. -/
def reconcileWitnessDef : JSVal :=
  .obj [("gltf2", .str "w"),
        ("animations", .obj [("walk", .obj [("timeScale", .num 2)])])]

/-- A loaded instance for the reconciliation witness. -/
def reconcileWitnessInst : MeshInst :=
  { url := "w", parentChildren := [], scene := none, hasMixer := true,
    timeStamp := -1, animationParams := .undefined, activeAnimations := [],
    allAnimations := [("animation_walk", ActionState.initial)], fbxAction := none }

/-- A cached FBX model and a definition naming its URL. -/
def warmFbxEntry : LoadedModel :=
  { scene := .node 0 false false false [], animations := [] }

/-- FBX module state whose cache already holds `m.fbx` with count `1`. -/
def warmFbxGlobals : FbxGlobals :=
  { cache := [("m.fbx", (1, warmFbxEntry))], loadList := [] }

/-- A definition whose `fbx` field names the cached URL. -/
def warmFbxDef : JSVal := .obj [("fbx", .str "m.fbx")]

/-- GLTF2 module state whose cache already holds `m.gltf` with count `1`. -/
def warmGltfGlobals : Gltf2Globals :=
  { cache := [("m.gltf", (1, warmFbxEntry))], loadList := [] }

/-- A definition whose `gltf2` field names the cached URL. -/
def warmGltfDef : JSVal := .obj [("gltf2", .str "m.gltf")]

/-- A disposed-about instance: scene attached, URL cached with count `2`. -/
def warmDisposeInst : MeshInst :=
  { url := "m.gltf", parentChildren := [7], scene := some (.node 7 false false false []),
    hasMixer := true, timeStamp := -1, animationParams := .undefined,
    activeAnimations := [], allAnimations := [], fbxAction := none }

/-- A definition carrying only an `fbx` URL. -/
def fbxOnlyDef : JSVal := .obj [("fbx", .str "model.fbx")]

/-- The FBX instance that definition constructs. -/
def fbxOnlyInst : MeshInst := pendingInst fbxOnlyDef "fbx" []

/-- A pending FBX instance (no scene attached). -/
def disposeWitnessInst : MeshInst := pendingInst (.obj [("fbx", .str "d.fbx")]) "fbx" []

/-- `GLTF2ModelLoader.canLoad(definition)`:
`definition && definition.hasOwnProperty('gltf2')`
(`GLTF2ModelLoader.js` lines 228–230). -/
def gltf2CanLoad (definition : JSVal) : JSVal :=
  jsAnd definition (.bool (hasOwnProp definition "gltf2"))

/-- `FBXModelLoader.canLoad(definition)`:
`definition && definition.hasOwnProperty('fbx')`
(`part_000` lines 201–203). -/
def fbxCanLoad (definition : JSVal) : JSVal :=
  jsAnd definition (.bool (hasOwnProp definition "fbx"))

/-- The initial FBX module state: both containers start empty. -/
def fbxInit : FbxGlobals := { cache := [], loadList := [] }

/-- Definition used by the load-failure witness. -/
def failDef : JSVal := .obj [("gltf2", .str "w5.gltf")]

/-- A definition whose `animations` object plays with an explicit zero
time scale (`{play: true, timeScale: 0}`). -/
def playZeroDef : JSVal :=
  .obj [("gltf2", .str "z"),
        ("animations", .obj [("play", .bool true), ("timeScale", .num 0)])]

/-- The pending instance constructed from `playZeroDef`. -/
def playZeroInst : MeshInst := pendingInst playZeroDef "gltf2" []

/-- A loaded model with a single animation clip named `A`. -/
def modelOneClip : LoadedModel :=
  { scene := .node 3 false false false [], animations := ["A"] }

/-- A definition whose `animations` object plays with time scale `2`. -/
def playDef : JSVal :=
  .obj [("gltf2", .str "p"),
        ("animations", .obj [("play", .bool true), ("timeScale", .num 2)])]

/-- The pending instance constructed from `playDef`. -/
def playInst : MeshInst := pendingInst playDef "gltf2" []

/-- A definition carrying no `animations` field. -/
def noAnimDef : JSVal := .obj [("gltf2", .str "q")]

/-- A leaf scene node owning a geometry and a material. -/
def evictChild : SceneNode := .node 2 false true true []

/-- A root scene node with a `dispose` method, a geometry and one child. -/
def evictRoot : SceneNode := .node 1 true true false [evictChild]

/-- A cache entry whose scene graph is `evictRoot`. -/
def evictEntry : LoadedModel := { scene := evictRoot, animations := [] }

/-!
## Helper lemmas: association-list operations
-/

theorem alookup_setAction_self (all : List (String × ActionState)) (k : String)
    (f : ActionState → ActionState) :
    alookup (setAction all k f) k = (alookup all k).map f := by
  induction all with
  | nil => rfl
  | cons p rest ih =>
    obtain ⟨k', a⟩ := p
    by_cases h : k' = k <;> simp [setAction, alookup, h, ih]

theorem alookup_setAction_ne (all : List (String × ActionState)) (k' k : String)
    (f : ActionState → ActionState) (h : k' ≠ k) :
    alookup (setAction all k' f) k = alookup all k := by
  induction all with
  | nil => rfl
  | cons p rest ih =>
    obtain ⟨k₀, a⟩ := p
    by_cases h0 : k₀ = k'
    · subst h0
      simp [setAction, alookup, h]
    · by_cases h1 : k₀ = k <;> simp [setAction, alookup, h0, h1, ih, Ne.symm h]

theorem alookup_upsert_self (all : List (String × ActionState)) (k : String)
    (v : ActionState) : alookup (upsert all k v) k = some v := by
  induction all with
  | nil => simp [upsert, alookup]
  | cons p rest ih =>
    obtain ⟨k₀, a⟩ := p
    by_cases h0 : k₀ = k <;> simp [upsert, alookup, h0, ih]

theorem alookup_upsert_ne (all : List (String × ActionState)) (k' k : String)
    (v : ActionState) (h : k' ≠ k) :
    alookup (upsert all k' v) k = alookup all k := by
  induction all with
  | nil => simp [upsert, alookup, h]
  | cons p rest ih =>
    obtain ⟨k₀, a⟩ := p
    by_cases h0 : k₀ = k'
    · subst h0
      simp [upsert, alookup, h]
    · by_cases h1 : k₀ = k <;> simp [upsert, alookup, h0, h1, ih, Ne.symm h]

theorem alookup_fold_upsert (v : ActionState) (names : List String) :
    ∀ (all : List (String × ActionState)) (k : String),
      alookup (names.foldl (fun al n => upsert al n v) all) k =
        if k ∈ names then some v else alookup all k := by
  induction names with
  | nil => intro all k; simp
  | cons n rest ih =>
    intro all k
    by_cases hk : k ∈ rest
    · simp [List.foldl_cons, ih, hk]
    · by_cases hn : k = n
      · subst hn
        simp [List.foldl_cons, ih, hk, alookup_upsert_self]
      · simp [List.foldl_cons, ih, hk, hn,
          alookup_upsert_ne all n k v (fun h => hn h.symm)]

/-!
## Helper lemmas: the reconciliation loop
-/

theorem prefixedName_inj : Function.Injective prefixedName := by
  intro a b h
  have hd := congrArg String.data h
  simp only [prefixedName, String.data_append] at hd
  exact String.ext (List.append_cancel_left hd)

theorem processKey_active (A : JSVal) (st : LoopSt) (key : String) :
    (processKey A st key).active = st.active.erase (prefixedName key) := by
  cases halo : alookup st.all (prefixedName key) <;> simp [processKey, halo]

theorem processKey_newActive (A : JSVal) (st : LoopSt) (key : String) :
    (processKey A st key).newActive =
      if st.newActive.contains (prefixedName key) then st.newActive
      else st.newActive ++ [prefixedName key] := by
  cases halo : alookup st.all (prefixedName key) <;> simp [processKey, halo]

theorem processKey_all_ne (A : JSVal) (st : LoopSt) (key : String) (n : String)
    (h : n ≠ prefixedName key) :
    alookup (processKey A st key).all n = alookup st.all n := by
  cases halo : alookup st.all (prefixedName key) with
  | none => simp [processKey, halo]
  | some a =>
    simp only [processKey, halo]
    by_cases h1 : truthy (getProp A key) <;>
      by_cases h2 : prefixedName key ∈ st.active <;>
        simp [h1, h2, alookup_setAction_ne _ _ _ _ (Ne.symm h)]

theorem processKey_self (A : JSVal) (st : LoopSt) (key : String) (a : ActionState)
    (ha : alookup st.all (prefixedName key) = some a) :
    ∃ a', alookup (processKey A st key).all (prefixedName key) = some a' ∧
      a'.playing =
        (if prefixedName key ∈ st.active then a.playing else true) ∧
      a'.fadeTime =
        (if truthy (getProp A key) then
          jsOrVal (getProp (getProp A key) "fadeTime") (.num 0) else a.fadeTime) ∧
      a'.timeScale =
        (if truthy (getProp A key) then
          jsOrVal (getProp (getProp A key) "timeScale") (.num 1) else a.timeScale) ∧
      a'.weight =
        (if truthy (getProp A key) then
          jsOrVal (getProp (getProp A key) "weight") (.num 1) else a.weight) := by
  simp only [processKey, ha]
  by_cases hcon : prefixedName key ∈ st.active <;>
    by_cases htr : truthy (getProp A key) <;>
      simp [hcon, htr, alookup_setAction_self, ha] <;>
        split <;> simp

theorem fold_all_ne (A : JSVal) (ks : List String) :
    ∀ (st : LoopSt) (n : String), n ∉ ks.map prefixedName →
      alookup (ks.foldl (processKey A) st).all n = alookup st.all n := by
  induction ks with
  | nil => intro st n _; rfl
  | cons k rest ih =>
    intro st n hn
    simp only [List.map_cons, List.mem_cons, not_or] at hn
    rw [List.foldl_cons, ih _ n hn.2, processKey_all_ne _ _ _ _ hn.1]

theorem fold_active_sub (A : JSVal) (ks : List String) :
    ∀ (st : LoopSt) (n : String),
      n ∈ (ks.foldl (processKey A) st).active → n ∈ st.active := by
  induction ks with
  | nil => intro st n h; exact h
  | cons k rest ih =>
    intro st n h
    rw [List.foldl_cons] at h
    have := ih _ n h
    rw [processKey_active] at this
    exact List.mem_of_mem_erase this

theorem fold_active_keep (A : JSVal) (ks : List String) :
    ∀ (st : LoopSt) (n : String), n ∈ st.active → n ∉ ks.map prefixedName →
      n ∈ (ks.foldl (processKey A) st).active := by
  induction ks with
  | nil => intro st n h _; exact h
  | cons k rest ih =>
    intro st n h hn
    simp only [List.map_cons, List.mem_cons, not_or] at hn
    rw [List.foldl_cons]
    refine ih _ n ?_ hn.2
    rw [processKey_active]
    exact (List.mem_erase_of_ne hn.1).mpr h

theorem fold_active_nodup (A : JSVal) (ks : List String) :
    ∀ (st : LoopSt), st.active.Nodup → (ks.foldl (processKey A) st).active.Nodup := by
  induction ks with
  | nil => intro st h; exact h
  | cons k rest ih =>
    intro st h
    rw [List.foldl_cons]
    refine ih _ ?_
    rw [processKey_active]
    exact h.erase _

theorem fold_active_removed (A : JSVal) (ks : List String) :
    ∀ (st : LoopSt) (k : String), k ∈ ks → st.active.Nodup →
      prefixedName k ∉ (ks.foldl (processKey A) st).active := by
  induction ks with
  | nil => intro st k h; exact absurd h (List.not_mem_nil k)
  | cons k0 rest ih =>
    intro st k hk hnd
    rw [List.foldl_cons]
    rcases List.mem_cons.mp hk with heq | htl
    · subst heq
      intro hmem
      have h1 := fold_active_sub A rest _ _ hmem
      rw [processKey_active] at h1
      exact (by simp [hnd.mem_erase_iff] : prefixedName k ∉ st.active.erase (prefixedName k)) h1
    · refine ih _ k htl ?_
      rw [processKey_active]
      exact hnd.erase _

theorem fold_newActive (A : JSVal) (ks : List String) :
    ∀ (st : LoopSt), (ks.map prefixedName).Nodup →
      (∀ n ∈ ks.map prefixedName, n ∉ st.newActive) →
      (ks.foldl (processKey A) st).newActive = st.newActive ++ ks.map prefixedName := by
  induction ks with
  | nil => intro st _ _; simp
  | cons k rest ih =>
    intro st hnd hdisj
    rw [List.foldl_cons]
    have hk0 : prefixedName k ∉ st.newActive :=
      hdisj _ (by simp)
    have hna : (processKey A st k).newActive = st.newActive ++ [prefixedName k] := by
      rw [processKey_newActive]
      simp [List.elem_iff, hk0]
    rw [List.map_cons] at hnd hdisj ⊢
    have hrest := ih (processKey A st k)
      hnd.of_cons
      (by
        intro n hn
        rw [hna]
        simp only [List.mem_append, List.mem_singleton, not_or]
        refine ⟨hdisj n (List.mem_cons_of_mem _ hn), ?_⟩
        intro heq
        subst heq
        exact (List.nodup_cons.mp hnd).1 hn)
    rw [hrest, hna]
    simp

theorem fold_master (A : JSVal) (ks : List String) :
    ∀ (st : LoopSt), (ks.map prefixedName).Nodup →
      ∀ k ∈ ks, ∀ a, alookup st.all (prefixedName k) = some a →
        ∃ a', alookup (ks.foldl (processKey A) st).all (prefixedName k) = some a' ∧
          a'.playing = (if prefixedName k ∈ st.active then a.playing else true) ∧
          a'.fadeTime =
            (if truthy (getProp A k) then
              jsOrVal (getProp (getProp A k) "fadeTime") (.num 0) else a.fadeTime) ∧
          a'.timeScale =
            (if truthy (getProp A k) then
              jsOrVal (getProp (getProp A k) "timeScale") (.num 1) else a.timeScale) ∧
          a'.weight =
            (if truthy (getProp A k) then
              jsOrVal (getProp (getProp A k) "weight") (.num 1) else a.weight) := by
  induction ks with
  | nil => intro st _ k hk; exact absurd hk (List.not_mem_nil k)
  | cons k0 rest ih =>
    intro st hnd k hk a ha
    rw [List.map_cons, List.nodup_cons] at hnd
    rw [List.foldl_cons]
    rcases List.mem_cons.mp hk with heq | htl
    · subst heq
      obtain ⟨a', ha', hplay, hfade, hscale, hweight⟩ := processKey_self A st k a ha
      have hnot : prefixedName k ∉ rest.map prefixedName := hnd.1
      refine ⟨a', ?_, hplay, hfade, hscale, hweight⟩
      rw [fold_all_ne A rest _ _ hnot, ha']
    · have hne : prefixedName k ≠ prefixedName k0 := by
        intro heq
        exact hnd.1 (heq ▸ List.mem_map_of_mem prefixedName htl)
      have ha1 : alookup (processKey A st k0).all (prefixedName k) = some a := by
        rw [processKey_all_ne _ _ _ _ hne, ha]
      obtain ⟨a', ha', hplay, hfade, hscale, hweight⟩ :=
        ih (processKey A st k0) hnd.2 k htl a ha1
      refine ⟨a', ha', ?_, hfade, hscale, hweight⟩
      rw [hplay, processKey_active]
      by_cases hmem : prefixedName k ∈ st.active
      · rw [if_pos ((List.mem_erase_of_ne hne).mpr hmem), if_pos hmem]
      · rw [if_neg (fun hx => hmem (List.mem_of_mem_erase hx)), if_neg hmem]

theorem stopLeftovers_not_mem (active : List String) :
    ∀ (all : List (String × ActionState)) (k : String), k ∉ active →
      alookup (stopLeftovers active all) k = alookup all k := by
  induction active with
  | nil => intro all k _; rfl
  | cons a0 rest ih =>
    intro all k hk
    simp only [List.mem_cons, not_or] at hk
    rw [stopLeftovers, List.foldl_cons]
    rw [show (rest.foldl _ _ : List (String × ActionState)) = stopLeftovers rest _ from rfl,
      ih _ k hk.2]
    split
    · exact alookup_setAction_ne _ _ _ _ (fun h => hk.1 h.symm)
    · rfl

theorem stopLeftovers_mem (active : List String) :
    ∀ (all : List (String × ActionState)) (k : String), k ∈ active →
      alookup (stopLeftovers active all) k =
        (alookup all k).map (fun a => { a with playing := false }) := by
  induction active with
  | nil => intro all k h; exact absurd h (List.not_mem_nil k)
  | cons a0 rest ih =>
    intro all k hk
    rw [stopLeftovers, List.foldl_cons]
    rw [show (rest.foldl _ _ : List (String × ActionState)) = stopLeftovers rest _ from rfl]
    by_cases hmem : k ∈ rest
    · rw [ih _ k hmem]
      split
      · rename_i hsome
        by_cases heq : a0 = k
        · subst heq
          rw [alookup_setAction_self]
          cases alookup all a0 <;> rfl
        · rw [alookup_setAction_ne _ _ _ _ heq]
      · rfl
    · have heq : a0 = k := by
        rcases List.mem_cons.mp hk with h | h
        · exact h.symm
        · exact absurd h hmem
      subst heq
      rw [stopLeftovers_not_mem rest _ _ hmem]
      split
      · rename_i hsome
        rw [alookup_setAction_self]
      · rename_i hnone
        rw [Option.not_isSome_iff_eq_none.mp hnone]
        rfl

theorem alookup_map_stop (all : List (String × ActionState)) (k : String) :
    alookup (all.map (fun p => (p.1, { p.2 with playing := false }))) k =
      (alookup all k).map (fun a => { a with playing := false }) := by
  induction all with
  | nil => rfl
  | cons p rest ih =>
    obtain ⟨k₀, a⟩ := p
    by_cases h0 : k₀ = k <;> simp [alookup, h0, ih]

/-!
## Claim C1: animation reconciliation
-/

/-- Claim C1 (amended).  For an instance whose model has loaded and a
definition whose URL matches, `update` returns `true` and reconciles:
when `definition.animations` is falsy or carries a `length` strictly
equal to `0`, all actions are stopped and the active record emptied;
otherwise (including an empty `animations` object, which has no `length`
property) `ReconcileSpec` holds — requested parameter values that are
falsy (e.g. a zero time scale) fall back to the defaults `0` / `1` / `1`
rather than being applied. -/
theorem updateAnimation_reconciliation (i : MeshInst) (definition : JSVal)
    (hurl : (extractURL (getProp definition "gltf2")).getD "" = i.url)
    (hmix : i.hasMixer = true)
    (hkeys : (jsKeys (getProp definition "animations")).Nodup)
    (hact : i.activeAnimations.Nodup)
    (hinv : ∀ n ∈ i.activeAnimations,
      ∀ a, alookup i.allAnimations n = some a → a.playing = true) :
    (gltf2Update definition i).1 = true ∧
    ((!truthy (getProp definition "animations") ||
        isNumZero (getProp (getProp definition "animations") "length")) = true →
      StopAllSpec (gltf2Update definition i).2) ∧
    ((!truthy (getProp definition "animations") ||
        isNumZero (getProp (getProp definition "animations") "length")) = false →
      ReconcileSpec definition i (gltf2Update definition i).2) := by
  have hup : gltf2Update definition i = (true, updateAnimation definition i) := by
    rw [gltf2Update, hurl]
    simp
  rw [hup]
  refine ⟨rfl, ?_, ?_⟩
  · intro hcond
    rw [updateAnimation]
    rw [hcond, if_pos rfl, if_pos hmix]
    refine ⟨rfl, ?_, ?_⟩
    · intro n a' ha'
      have ha2 : alookup (i.allAnimations.map
          (fun p => (p.1, { p.2 with playing := false }))) n = some a' := ha'
      rw [alookup_map_stop] at ha2
      cases halo : alookup i.allAnimations n with
      | none => rw [halo] at ha2; simp at ha2
      | some a =>
        rw [halo] at ha2
        simp only [Option.map_some', Option.some_inj] at ha2
        rw [← ha2]
    · intro a' ha'
      have ha2 : i.fbxAction.map (fun a => { a with playing := false }) = some a' := ha'
      cases hfa : i.fbxAction with
      | none => rw [hfa] at ha2; simp at ha2
      | some a =>
        rw [hfa] at ha2
        simp only [Option.map_some', Option.some_inj] at ha2
        rw [← ha2]
  · intro hcond
    rw [updateAnimation, hcond]
    simp only [Bool.false_eq_true, if_false]
    set st0 : LoopSt :=
      { all := i.allAnimations, active := i.activeAnimations, newActive := [] } with hst0
    have hreqnd : ((jsKeys (getProp definition "animations")).map prefixedName).Nodup :=
      hkeys.map prefixedName_inj
    refine ⟨?_, ?_, ?_⟩
    · show (((jsKeys (getProp definition "animations")).foldl
        (processKey (getProp definition "animations")) st0).newActive) = _
      rw [fold_newActive _ _ st0 hreqnd (by intro n _; exact List.not_mem_nil n)]
      simp [hst0]
    · intro k hk a ha
      obtain ⟨a', ha', hplay, hfade, hscale, hweight⟩ :=
        fold_master (getProp definition "animations") _ st0 hreqnd k hk a ha
      have hnotact : prefixedName k ∉
          ((jsKeys (getProp definition "animations")).foldl
            (processKey (getProp definition "animations")) st0).active :=
        fold_active_removed _ _ st0 k hk hact
      refine ⟨a', ?_, ?_, hfade, hscale, hweight⟩
      · show alookup (stopLeftovers _ _) _ = _
        rw [stopLeftovers_not_mem _ _ _ hnotact, ha']
      · rw [hplay]
        split
        · rename_i hmem
          exact hinv _ hmem a ha
        · rfl
    · intro n hn hreq a' ha'
      have hmem : n ∈ ((jsKeys (getProp definition "animations")).foldl
          (processKey (getProp definition "animations")) st0).active :=
        fold_active_keep _ _ st0 n hn hreq
      have ha2 : alookup (stopLeftovers
          ((jsKeys (getProp definition "animations")).foldl
            (processKey (getProp definition "animations")) st0).active
          ((jsKeys (getProp definition "animations")).foldl
            (processKey (getProp definition "animations")) st0).all) n = some a' := ha'
      rw [stopLeftovers_mem _ _ n hmem] at ha2
      cases halo : alookup (((jsKeys (getProp definition "animations")).foldl
          (processKey (getProp definition "animations")) st0).all) n with
      | none => rw [halo] at ha2; simp at ha2
      | some a =>
        rw [halo] at ha2
        simp only [Option.map_some', Option.some_inj] at ha2
        rw [← ha2]

/-- Claim C1, as stated, is false: the definition requests
`animation_walk` with time scale `0`, the model is loaded, the URL
matches, yet after `update` the action's effective time scale is `1`,
not the requested `0` — `params.timeScale ? params.timeScale : 1`
treats the falsy requested value as unset. -/
theorem updateAnimation_zero_timeScale_cex :
    getProp (getProp (getProp zeroScaleDef "animations") "walk") "timeScale" =
      JSVal.num 0 ∧
    (alookup (gltf2Update zeroScaleDef zeroScaleInst).2.allAnimations
        "animation_walk").map ActionState.timeScale = some (JSVal.num 1) ∧
    JSVal.num 1 ≠ JSVal.num 0 := by
  refine ⟨rfl, rfl, ?_⟩
  intro h
  injection h with h0
  exact absurd h0 (by decide)

/-- Witness instantiating the amended reconciliation claim at a
concrete loaded instance and matching definition. -/
theorem updateAnimation_reconciliation_witness :
    (gltf2Update reconcileWitnessDef reconcileWitnessInst).1 = true ∧
    ReconcileSpec reconcileWitnessDef reconcileWitnessInst
      (gltf2Update reconcileWitnessDef reconcileWitnessInst).2 := by
  have h := updateAnimation_reconciliation reconcileWitnessInst reconcileWitnessDef
    rfl rfl (by decide) (by decide)
    (fun n hn => absurd hn (List.not_mem_nil n))
  exact ⟨h.1, h.2.2 rfl⟩

/-!
## Claim C2: reference-count bookkeeping
-/

theorem alookup_eq_none_of_not_mem_keys {β : Type} (c : List (String × β)) (u : String)
    (h : u ∉ c.map Prod.fst) : alookup c u = none := by
  induction c with
  | nil => rfl
  | cons p rest ih =>
    simp only [List.map_cons, List.mem_cons, not_or] at h
    obtain ⟨k, v⟩ := p
    simp only [alookup]
    rw [if_neg (fun he => h.1 he.symm)]
    exact ih h.2

theorem pendingInst_url (d : JSVal) (f : String) (pc : List Nat) :
    (pendingInst d f pc).url = (extractURL (getProp d f)).getD "" := rfl

theorem alookup_addReference (c : RefCache) (u : String) :
    alookup (addReference c u) u = (alookup c u).map (fun p => (p.1 + 1, p.2)) := by
  induction c with
  | nil => rfl
  | cons p rest ih =>
    obtain ⟨k, n, e⟩ := p
    by_cases hk : k = u <;> simp [addReference, alookup, hk, ih]

theorem refCount_addReference (c : RefCache) (u : String)
    (h : cacheHas c u = true) :
    refCount (addReference c u) u = refCount c u + 1 := by
  rw [cacheHas] at h
  rw [refCount, refCount, alookup_addReference]
  cases halo : alookup c u with
  | none => rw [halo] at h; simp at h
  | some p => obtain ⟨n, e⟩ := p; rfl

theorem alookup_removeReference (c : RefCache) (u : String)
    (hnd : (c.map Prod.fst).Nodup) :
    alookup (removeReference c u).1 u =
      match alookup c u with
      | some (n, e) => if n ≤ 1 then none else some (n - 1, e)
      | none => none := by
  induction c with
  | nil => rfl
  | cons p rest ih =>
    obtain ⟨k, n, e⟩ := p
    rw [List.map_cons, List.nodup_cons] at hnd
    by_cases hk : k = u
    · subst hk
      by_cases hn : n ≤ 1
      · simp [removeReference, alookup, hn,
          alookup_eq_none_of_not_mem_keys rest k hnd.1]
      · simp [removeReference, alookup, hn]
    · simp only [removeReference, alookup, if_neg hk]
      exact ih hnd.2

theorem refCount_removeReference (c : RefCache) (u : String)
    (hnd : (c.map Prod.fst).Nodup) :
    refCount (removeReference c u).1 u = refCount c u - 1 := by
  rw [refCount, refCount, alookup_removeReference c u hnd]
  cases halo : alookup c u with
  | none => rfl
  | some p =>
    obtain ⟨n, e⟩ := p
    by_cases hn : n ≤ 1 <;> simp [hn]

/-- Claim C2 (amended).  Constructing a GLTF2 instance for a URL whose
entry is already cached increments that URL's reference count by one
(the synchronous cache-hit `onLoad` finds `has` true and calls
`addReference`); the FBX constructor, by contrast, never consults
`fbxStateCache`, so construction leaves the FBX module state unchanged;
and in both loaders — `dispose()` has the identical body in the two
classes — disposing an instance with an attached scene decrements the
instance URL's reference count by one. -/
theorem refcount_bookkeeping (d : JSVal) (pc : List Nat) (g : Gltf2Globals)
    (gf : FbxGlobals) (i : MeshInst) (c : RefCache) :
    (cacheHas g.cache ((extractURL (getProp d "gltf2")).getD "") = true →
      refCount (gltf2New d pc g).2.1.cache ((extractURL (getProp d "gltf2")).getD "") =
        refCount g.cache ((extractURL (getProp d "gltf2")).getD "") + 1) ∧
    (fbxNew d pc gf).2 = gf ∧
    (i.scene.isSome = true → (c.map Prod.fst).Nodup →
      refCount (disposeInst i c).2.1 i.url = refCount c i.url - 1) := by
  refine ⟨?_, rfl, ?_⟩
  · intro h
    have hget := h
    rw [cacheHas] at hget
    cases hcg : cacheGet g.cache ((extractURL (getProp d "gltf2")).getD "") with
    | none =>
      rw [cacheGet] at hcg
      cases halo : alookup g.cache ((extractURL (getProp d "gltf2")).getD "") with
      | none => rw [halo] at hget; simp at hget
      | some p => rw [halo] at hcg; simp at hcg
    | some entry =>
      have : (gltf2New d pc g).2.1.cache =
          addReference g.cache ((extractURL (getProp d "gltf2")).getD "") := by
        simp only [gltf2New, pendingInst_url, hcg]
      rw [this]
      exact refCount_addReference _ _ h
  · intro hs hnd
    cases hsc : i.scene with
    | none => rw [hsc] at hs; simp at hs
    | some s =>
      have : (disposeInst i c).2.1 = (removeReference c i.url).1 := by
        rw [disposeInst]
        simp only [hsc]
      rw [this]
      exact refCount_removeReference c i.url hnd

/-- Claim C2, as stated, is false for the FBX loader: constructing an
instance for `m.fbx`, whose entry sits in the cache with count `1`,
leaves the count at `1` instead of incrementing it to `2` — the FBX
constructor never consults the cache. -/
theorem fbx_construct_no_increment_cex :
    cacheHas warmFbxGlobals.cache "m.fbx" = true ∧
    (pendingInst warmFbxDef "fbx" []).url = "m.fbx" ∧
    refCount (fbxNew warmFbxDef [] warmFbxGlobals).2.cache "m.fbx" = 1 ∧
    (1 : Nat) ≠ 1 + 1 := by
  exact ⟨rfl, rfl, rfl, by decide⟩

/-- Witness instantiating the amended bookkeeping claim at concrete
module states. -/
theorem refcount_bookkeeping_witness :
    refCount (gltf2New warmGltfDef [] warmGltfGlobals).2.1.cache "m.gltf" =
      refCount warmGltfGlobals.cache "m.gltf" + 1 ∧
    (fbxNew warmGltfDef [] warmFbxGlobals).2 = warmFbxGlobals ∧
    refCount (disposeInst warmDisposeInst [("m.gltf", (2, warmFbxEntry))]).2.1 "m.gltf" =
      refCount [("m.gltf", (2, warmFbxEntry))] "m.gltf" - 1 := by
  have h := refcount_bookkeeping warmGltfDef [] warmGltfGlobals warmFbxGlobals
    warmDisposeInst [("m.gltf", (2, warmFbxEntry))]
  exact ⟨h.1 rfl, h.2.1, h.2.2 rfl (by simp)⟩

/-!
## Claim C3: the FBX `update` URL check
-/

/-- Claim C3 fails on the code: the FBX instance's URL is `model.fbx`
and the definition's `fbx` field extracts to the same URL, yet
`update(definition)` returns `false` and leaves the instance untouched,
because `FBXMeshInstance.update` extracts the URL from
`definition.gltf2` (`part_000` line 156) — while the GLTF2 adapter on
the analogous `gltf2` definition returns `true`. -/
theorem fbx_update_reads_gltf2_field :
    fbxOnlyInst.url = "model.fbx" ∧
    (extractURL (getProp fbxOnlyDef "fbx")).getD "" = "model.fbx" ∧
    fbxUpdate fbxOnlyDef fbxOnlyInst = (false, fbxOnlyInst) ∧
    (gltf2Update (.obj [("gltf2", .str "model.gltf")])
      (pendingInst (.obj [("gltf2", .str "model.gltf")]) "gltf2" [])).1 = true := by
  exact ⟨rfl, rfl, rfl, rfl⟩

/-!
## Claim C9: `dispose` is a guarded no-op and idempotent
-/

/-- Claim C9.  `dispose()` does nothing when no scene is attached (load
pending, FBX instances — which never set `this.scene` — or already
disposed); consequently a second `dispose()` after a first one returns
the same instance and cache, decrements no reference count and detaches
nothing further. -/
theorem dispose_noop_idempotent (i : MeshInst) (c : RefCache) :
    (i.scene = none → disposeInst i c = (i, c, none)) ∧
    disposeInst (disposeInst i c).1 (disposeInst i c).2.1 =
      ((disposeInst i c).1, (disposeInst i c).2.1, none) := by
  constructor
  · intro h
    simp [disposeInst, h]
  · cases hsc : i.scene with
    | none => simp [disposeInst, hsc]
    | some s => simp [disposeInst, hsc]

/-- Witness instantiating the dispose claim at a concrete sceneless
instance and empty cache. -/
theorem dispose_noop_idempotent_witness :
    disposeInst disposeWitnessInst [] = (disposeWitnessInst, [], none) :=
  (dispose_noop_idempotent disposeWitnessInst []).1 rfl

/-!
## Claim C4: the GLTF2 cache and load list are never populated
-/

theorem gltf2Step_init (op : GOp) :
    gltf2Step gltf2Init op = (gltf2Init, gltf2PureEvent op) := by
  cases op with
  | construct d =>
    simp [gltf2Step, gltf2New, gltf2Init, cacheGet, alookup, gltf2PureEvent]
  | netLoad i gltf =>
    simp [gltf2Step, gltf2NetLoad, gltf2Init, cacheHas, alookup, gltf2PureEvent]
  | netFail i =>
    simp [gltf2Step, gltf2LoadFail, gltf2Init, gltf2PureEvent]
  | dispose i =>
    cases hsc : i.scene <;>
      simp [gltf2Step, disposeInst, hsc, gltf2Init, removeReference, gltf2PureEvent]

theorem gltf2Run_init (ops : List GOp) :
    gltf2Run gltf2Init ops = (gltf2Init, ops.map gltf2PureEvent) := by
  induction ops with
  | nil => rfl
  | cons op rest ih => simp [gltf2Run, gltf2Step_init, ih]

theorem gltf2PureEvent_ne (op : GOp) :
    gltf2PureEvent op ≠ .cacheHit ∧ gltf2PureEvent op ≠ .pendingAppend ∧
      gltf2PureEvent op ≠ .onLoadAddRef := by
  cases op with
  | construct d => simp [gltf2PureEvent]
  | netLoad i gltf => simp [gltf2PureEvent]
  | netFail i => simp [gltf2PureEvent]
  | dispose i => by_cases h : i.scene.isSome <;> simp [gltf2PureEvent, h]

/-- Claim C4.  From the initial empty module state, no sequence of
constructions, load completions, load failures and disposals ever
populates `gltfStateCache` or `loadList`: the module state stays empty,
every construction takes the fresh-`loader.load` branch (never the
cache-hit or pending-download branch), and the `addReference` call
inside the load callback never runs. -/
theorem gltf2_module_state_stays_empty (ops : List GOp) :
    (gltf2Run gltf2Init ops).1.cache = [] ∧
    (gltf2Run gltf2Init ops).1.loadList = [] ∧
    (gltf2Run gltf2Init ops).2 = ops.map gltf2PureEvent ∧
    GEvent.cacheHit ∉ (gltf2Run gltf2Init ops).2 ∧
    GEvent.pendingAppend ∉ (gltf2Run gltf2Init ops).2 ∧
    GEvent.onLoadAddRef ∉ (gltf2Run gltf2Init ops).2 := by
  have h := gltf2Run_init ops
  refine ⟨by rw [h]; rfl, by rw [h]; rfl, by rw [h], ?_, ?_, ?_⟩ <;> rw [h]
  · intro hmem
    obtain ⟨op, _, heq⟩ := List.mem_map.mp hmem
    exact (gltf2PureEvent_ne op).1 heq
  · intro hmem
    obtain ⟨op, _, heq⟩ := List.mem_map.mp hmem
    exact (gltf2PureEvent_ne op).2.1 heq
  · intro hmem
    obtain ⟨op, _, heq⟩ := List.mem_map.mp hmem
    exact (gltf2PureEvent_ne op).2.2 heq

/-!
## Claim C5: load failure clears the pending record and nothing else
-/

/-- Claim C5.  When an in-flight load fails, the error callback logs the
failure and deletes the URL's pending-load record, and nothing else: the
error is not surfaced, the instance is untouched, and its observable
state — no scene, no mixer, empty animation records — is exactly that of
an instance whose load is still pending.  Holds for both loaders (the
GLTF2 half under the hypothesis that the construction took the
fresh-load branch, which is where a load can be in flight). -/
theorem load_failure_clears_record (d : JSVal) (pc : List Nat)
    (g : Gltf2Globals) (gf : FbxGlobals)
    (hfresh : (gltf2New d pc g).2.2 = ConstructEvent.freshLoad) :
    ((gltf2LoadFail (gltf2New d pc g).1 g).1 = (gltf2New d pc g).1 ∧
      (gltf2New d pc g).1.scene = none ∧
      (gltf2New d pc g).1.hasMixer = false ∧
      (gltf2New d pc g).1.activeAnimations = [] ∧
      (gltf2New d pc g).1.allAnimations = [] ∧
      (gltf2LoadFail (gltf2New d pc g).1 g).2.1.loadList =
        g.loadList.erase (gltf2New d pc g).1.url ∧
      (gltf2LoadFail (gltf2New d pc g).1 g).2.1.cache = g.cache ∧
      (gltf2LoadFail (gltf2New d pc g).1 g).2.2 =
        "failed to load GLTF " ++ (gltf2New d pc g).1.url) ∧
    ((fbxLoadFail (fbxNew d pc gf).1 gf).1 = (fbxNew d pc gf).1 ∧
      (fbxNew d pc gf).1.scene = none ∧
      (fbxNew d pc gf).1.hasMixer = false ∧
      (fbxNew d pc gf).1.activeAnimations = [] ∧
      (fbxNew d pc gf).1.allAnimations = [] ∧
      (fbxLoadFail (fbxNew d pc gf).1 gf).2.1.loadList =
        gf.loadList.erase (fbxNew d pc gf).1.url ∧
      (fbxLoadFail (fbxNew d pc gf).1 gf).2.1.cache = gf.cache ∧
      (fbxLoadFail (fbxNew d pc gf).1 gf).2.2 =
        "failed to load FBX " ++ (fbxNew d pc gf).1.url) := by
  have hinst : (gltf2New d pc g).1 = pendingInst d "gltf2" pc := by
    cases hcg : cacheGet g.cache (pendingInst d "gltf2" pc).url with
    | some entry =>
      have hev : (gltf2New d pc g).2.2 = ConstructEvent.cacheHit := by
        simp [gltf2New, hcg]
      rw [hev] at hfresh
      simp at hfresh
    | none =>
      by_cases hl : (pendingInst d "gltf2" pc).url ∈ g.loadList
      · have hev : (gltf2New d pc g).2.2 = ConstructEvent.pendingAppend := by
          simp [gltf2New, hcg, hl]
        rw [hev] at hfresh
        simp at hfresh
      · simp [gltf2New, hcg, hl]
  rw [hinst]
  exact ⟨⟨rfl, rfl, rfl, rfl, rfl, rfl, rfl, rfl⟩,
         ⟨rfl, rfl, rfl, rfl, rfl, rfl, rfl, rfl⟩⟩

/-- Witness instantiating the load-failure claim at a concrete fresh
construction from the empty module state. -/
theorem load_failure_clears_record_witness :
    (gltf2LoadFail (gltf2New failDef [] gltf2Init).1 gltf2Init).1 =
      (gltf2New failDef [] gltf2Init).1 ∧
    (gltf2New failDef [] gltf2Init).1.scene = none ∧
    (gltf2LoadFail (gltf2New failDef [] gltf2Init).1 gltf2Init).2.2 =
      "failed to load GLTF " ++ (gltf2New failDef [] gltf2Init).1.url := by
  have h := load_failure_clears_record failDef [] gltf2Init fbxInit rfl
  exact ⟨h.1.1, h.1.2.1, h.1.2.2.2.2.2.2.2⟩

/-!
## Claim C6: load-callback mixer creation and initial playback
-/

/-- Claim C6 (amended).  On load completion each callback instantiates
an animation mixer; when the parsed params' `play` is truthy, playback
starts — in the GLTF2 loader for every animation of the model, in the
FBX loader for the single action built on the first animation — with
`fadeTime` / `timeScale` / `weight` taken from the params when truthy and
falling back to `0` / `1` / `1` when unset *or falsy*; when `play` is
falsy no playback starts (the GLTF2 callback creates no actions at all,
the FBX callback leaves its action in the non-playing default state);
and a definition without an `animations` field parses to the default
params `{play: false, timeScale: 0}`, whose `play` is falsy. -/
theorem onLoad_mixer_and_playback (gltf : LoadedModel) (i j : MeshInst) (d : JSVal) :
    (gltf2OnLoadInst gltf i).hasMixer = true ∧
    (truthy (getProp i.animationParams "play") = true →
      ∀ name ∈ gltf.animations,
        alookup (gltf2OnLoadInst gltf i).allAnimations name =
          some { playing := true,
                 fadeTime := jsOrVal (getProp i.animationParams "fadeTime") (.num 0),
                 timeScale := jsOrVal (getProp i.animationParams "timeScale") (.num 1),
                 weight := jsOrVal (getProp i.animationParams "weight") (.num 1),
                 synced := none }) ∧
    (truthy (getProp i.animationParams "play") = false →
      (gltf2OnLoadInst gltf i).allAnimations = i.allAnimations) ∧
    (gltf.animations ≠ [] →
      ∃ j', fbxOnLoadInst gltf j = some j' ∧ j'.hasMixer = true ∧
        j'.fbxAction = some (
          if truthy (getProp j.animationParams "play") then
            { playing := true,
              fadeTime := jsOrVal (getProp j.animationParams "fadeTime") (.num 0),
              timeScale := jsOrVal (getProp j.animationParams "timeScale") (.num 1),
              weight := jsOrVal (getProp j.animationParams "weight") (.num 1),
              synced := none }
          else ActionState.initial)) ∧
    (truthy (getProp d "animations") = false →
      parseAnimationParams d = .obj [("play", .bool false), ("timeScale", .num 0)] ∧
      truthy (getProp (parseAnimationParams d) "play") = false) := by
  refine ⟨?_, ?_, ?_, ?_, ?_⟩
  · by_cases hp : truthy (getProp i.animationParams "play") = true <;>
      by_cases he : gltf.animations.isEmpty <;>
        simp [gltf2OnLoadInst, hp, he]
  · intro hp name hname
    have hne : gltf.animations.isEmpty = false := by
      cases ha : gltf.animations with
      | nil => rw [ha] at hname; exact absurd hname (List.not_mem_nil name)
      | cons c rest => simp [ha]
    simp only [gltf2OnLoadInst, hp, hne, if_true, Bool.false_eq_true, if_false]
    simp only [alookup_fold_upsert, hname, if_pos]
  · intro hp
    simp [gltf2OnLoadInst, hp]
  · intro hne
    cases ha : gltf.animations with
    | nil => exact absurd ha hne
    | cons c rest =>
      by_cases hp : truthy (getProp j.animationParams "play") = true <;>
        simp [fbxOnLoadInst, ha, hp, ActionState.initial]
  · intro hmiss
    by_cases hd : truthy d = true
    · simp only [parseAnimationParams, hd, hmiss, if_true, Bool.false_eq_true, if_false]
      exact ⟨trivial, rfl⟩
    · have hd' : truthy d = false := by
        cases htd : truthy d
        · rfl
        · exact absurd htd hd
      simp only [parseAnimationParams, hd', Bool.false_eq_true, if_false]
      exact ⟨trivial, rfl⟩

/-- Claim C6, as stated, is false: the definition's animation params set
`play` with an explicit `timeScale` of `0`, yet after the GLTF2 load
callback the started action's effective time scale is `1`, not the
configured `0` — `!!params.timeScale ? params.timeScale : 1` treats the
falsy configured value as unset. -/
theorem onLoad_zero_timeScale_cex :
    truthy (getProp playZeroInst.animationParams "play") = true ∧
    getProp playZeroInst.animationParams "timeScale" = JSVal.num 0 ∧
    (alookup (gltf2OnLoadInst modelOneClip playZeroInst).allAnimations "A").map
      ActionState.timeScale = some (JSVal.num 1) ∧
    JSVal.num 1 ≠ JSVal.num 0 := by
  refine ⟨rfl, rfl, rfl, ?_⟩
  intro h
  injection h with h0
  exact absurd h0 (by decide)

/-- Witness instantiating the amended load-callback claim at a concrete
playing definition, a one-clip model, and a definition without
animations. -/
theorem onLoad_mixer_and_playback_witness :
    (gltf2OnLoadInst modelOneClip playInst).hasMixer = true ∧
    alookup (gltf2OnLoadInst modelOneClip playInst).allAnimations "A" =
      some { playing := true, fadeTime := JSVal.num 0, timeScale := JSVal.num 2,
             weight := JSVal.num 1, synced := none } ∧
    (fbxOnLoadInst modelOneClip playInst).isSome = true ∧
    truthy (getProp (parseAnimationParams noAnimDef) "play") = false := by
  have h := onLoad_mixer_and_playback modelOneClip playInst playInst noAnimDef
  refine ⟨h.1, h.2.1 rfl "A" (by simp [modelOneClip]), ?_, (h.2.2.2.2 rfl).2⟩
  obtain ⟨j', hj', _, _⟩ := h.2.2.2.1 (by simp [modelOneClip])
  rw [hj']
  rfl

/-!
## Claim C7: `canLoad`
-/

/-- Claim C7 (amended).  `canLoad` returns a value that is truthy
exactly when the definition is truthy and owns the loader's field
(`gltf2` / `fbx`); however it is not boolean-valued on falsy input: the
short-circuiting `&&` returns the falsy definition itself (`null`,
`undefined`, `0`, `''`, …) rather than `false`, and returns the boolean
`hasOwnProperty` result only for truthy input. -/
theorem truthy_bool (b : Bool) : truthy (.bool b) = b := rfl

theorem canLoad_characterization (v : JSVal) :
    truthy (gltf2CanLoad v) = (truthy v && hasOwnProp v "gltf2") ∧
    truthy (fbxCanLoad v) = (truthy v && hasOwnProp v "fbx") ∧
    (truthy v = false → gltf2CanLoad v = v ∧ fbxCanLoad v = v) ∧
    (truthy v = true → gltf2CanLoad v = .bool (hasOwnProp v "gltf2") ∧
      fbxCanLoad v = .bool (hasOwnProp v "fbx")) := by
  by_cases h : truthy v = true
  · refine ⟨?_, ?_, ?_, ?_⟩ <;>
      simp [gltf2CanLoad, fbxCanLoad, jsAnd, h, truthy_bool]
  · have h' : truthy v = false := by
      cases htd : truthy v
      · rfl
      · exact absurd htd h
    refine ⟨?_, ?_, ?_, ?_⟩ <;>
      simp [gltf2CanLoad, fbxCanLoad, jsAnd, h', truthy_bool]

/-- Claim C7, as stated, is false: `canLoad(null)` returns `null`
(the `&&` short-circuit value), which is not the boolean `false`. -/
theorem canLoad_null_cex :
    gltf2CanLoad JSVal.null = JSVal.null ∧
    fbxCanLoad JSVal.null = JSVal.null ∧
    JSVal.null ≠ JSVal.bool false := by
  refine ⟨rfl, rfl, ?_⟩
  intro h
  exact JSVal.noConfusion h

/-- Witness instantiating the `canLoad` characterization at a falsy and
a truthy concrete definition. -/
theorem canLoad_characterization_witness :
    gltf2CanLoad (JSVal.num 0) = JSVal.num 0 ∧
    gltf2CanLoad (.obj [("gltf2", .str "x")]) = JSVal.bool true ∧
    fbxCanLoad (.obj [("gltf2", .str "x")]) = JSVal.bool false := by
  have h0 := (canLoad_characterization (JSVal.num 0)).2.2.1 rfl
  have h1 := (canLoad_characterization (.obj [("gltf2", .str "x")])).2.2.2 rfl
  exact ⟨h0.1, h1.1, h1.2⟩

/-!
## Claim C10: the FBX callback's unconditional first-animation access
-/

/-- Claim C10.  The FBX load callback reads `fbx.animations[0]` and
hands it to `mixer.clipAction` before — and regardless of — the `play`
check, so the callback completes exactly when the loaded model has at
least one animation (an empty array makes `clipAction(undefined)` fail,
embedded as `none`); a nonempty `animations` array is thus a
precondition of the callback for every instance, also those whose
definition never requests playback. -/
theorem fbx_onLoad_requires_first_animation (fbx : LoadedModel) (i : MeshInst) :
    fbxOnLoadInst fbx i = none ↔ fbx.animations = [] := by
  cases ha : fbx.animations with
  | nil => simp [fbxOnLoadInst, ha]
  | cons c rest => simp [fbxOnLoadInst, ha]

/-!
## Claim C8: the eviction callback disposes every reachable node
-/

theorem reachableList_mem (cs : List SceneNode) (n : SceneNode)
    (h : n ∈ reachableList cs) : ∃ c ∈ cs, n ∈ reachable c := by
  induction cs with
  | nil => simp [reachableList] at h
  | cons c rest ih =>
    simp only [reachableList] at h
    rcases List.mem_append.mp h with h1 | h2
    · exact ⟨c, List.mem_cons_self c rest, h1⟩
    · obtain ⟨c', hc', hn⟩ := ih h2
      exact ⟨c', List.mem_cons_of_mem c hc', hn⟩

theorem reachable_cases (root n : SceneNode) (h : n ∈ reachable root) :
    n = root ∨ ∃ c ∈ root.children, n ∈ reachable c := by
  cases root with
  | node i d g m cs =>
    simp only [reachable] at h
    rcases List.mem_cons.mp h with h1 | h2
    · exact Or.inl h1
    · exact Or.inr (by simpa [SceneNode.children] using reachableList_mem cs n h2)

theorem recursiveDisposeList_super (cs : List SceneNode) (c : SceneNode)
    (hc : c ∈ cs) (e : DisposeEvent) (he : e ∈ recursiveDispose c) :
    e ∈ recursiveDisposeList cs := by
  induction cs with
  | nil => exact absurd hc (List.not_mem_nil c)
  | cons c0 rest ih =>
    simp only [recursiveDisposeList]
    rcases List.mem_cons.mp hc with h1 | h2
    · subst h1
      exact List.mem_append_left _ he
    · exact List.mem_append_right _ (ih h2)

theorem recursiveDispose_self (n : SceneNode) :
    (n.hasDispose = true → DisposeEvent.callDispose n.nid ∈ recursiveDispose n) ∧
    (n.hasGeometry = true → DisposeEvent.disposeGeometry n.nid ∈ recursiveDispose n) ∧
    (n.hasMaterial = true → DisposeEvent.disposeMaterial n.nid ∈ recursiveDispose n) := by
  cases n with
  | node i d g m cs =>
    refine ⟨?_, ?_, ?_⟩ <;> intro h <;>
      simp only [SceneNode.hasDispose, SceneNode.hasGeometry, SceneNode.hasMaterial] at h <;>
        simp [recursiveDispose, SceneNode.nid, h]

theorem recursiveDispose_child (p c : SceneNode) (hc : c ∈ p.children)
    (e : DisposeEvent) (he : e ∈ recursiveDispose c) : e ∈ recursiveDispose p := by
  cases p with
  | node i d g m cs =>
    simp only [recursiveDispose]
    simp only [SceneNode.children] at hc
    simp only [List.append_assoc, List.mem_append]
    exact Or.inr (Or.inr (Or.inr (recursiveDisposeList_super cs c hc e he)))

theorem recursiveDispose_complete (k : Nat) :
    ∀ (root : SceneNode), sizeOf root ≤ k → ∀ n ∈ reachable root,
      (n.hasDispose = true → DisposeEvent.callDispose n.nid ∈ recursiveDispose root) ∧
      (n.hasGeometry = true → DisposeEvent.disposeGeometry n.nid ∈ recursiveDispose root) ∧
      (n.hasMaterial = true → DisposeEvent.disposeMaterial n.nid ∈ recursiveDispose root) := by
  induction k with
  | zero =>
    intro root hsz
    exfalso
    cases root with
    | node i d g m cs =>
      simp only [SceneNode.node.sizeOf_spec] at hsz
      omega
  | succ k ih =>
    intro root hsz n hn
    rcases reachable_cases root n hn with rfl | ⟨c, hc, hnc⟩
    · exact recursiveDispose_self n
    · have hlt : sizeOf c < sizeOf root := by
        cases root with
        | node i d g m cs =>
          have h1 := List.sizeOf_lt_of_mem
            (by simpa [SceneNode.children] using hc : c ∈ cs)
          simp only [SceneNode.node.sizeOf_spec]
          omega
      obtain ⟨h1, h2, h3⟩ := ih c (by omega) n hnc
      exact ⟨fun hd => recursiveDispose_child root c hc _ (h1 hd),
             fun hg => recursiveDispose_child root c hc _ (h2 hg),
             fun hm => recursiveDispose_child root c hc _ (h3 hm)⟩

/-- Claim C8.  The cache eviction callback — `recursiveDispose` applied
to the evicted entry's scene — visits every node reachable from the
scene root through `children` and, for each, invokes the node's own
`dispose` when it is a function and releases its geometry and material
buffers when those properties exist. -/
theorem eviction_disposes_reachable (entry : LoadedModel) (n : SceneNode)
    (h : n ∈ reachable entry.scene) :
    (n.hasDispose = true → DisposeEvent.callDispose n.nid ∈ evictionCallback entry) ∧
    (n.hasGeometry = true → DisposeEvent.disposeGeometry n.nid ∈ evictionCallback entry) ∧
    (n.hasMaterial = true → DisposeEvent.disposeMaterial n.nid ∈ evictionCallback entry) :=
  recursiveDispose_complete (sizeOf entry.scene) entry.scene le_rfl n h

/-- Witness instantiating the eviction claim at a concrete two-node
scene graph: the root's own `dispose` runs and the child's geometry is
released. -/
theorem eviction_disposes_reachable_witness :
    DisposeEvent.callDispose 1 ∈ evictionCallback evictEntry ∧
    DisposeEvent.disposeGeometry 2 ∈ evictionCallback evictEntry := by
  have hroot := eviction_disposes_reachable evictEntry evictRoot
    (by simp [evictEntry, evictRoot, evictChild, reachable, reachableList])
  have hchild := eviction_disposes_reachable evictEntry evictChild
    (by simp [evictEntry, evictRoot, evictChild, reachable, reachableList])
  exact ⟨hroot.1 rfl, hchild.2.1 rfl⟩

end ReactVRWeb
